import Mathlib

/-!
Verification of the USDC wallet transfer pipeline.

Shallow embedding of the repository sources:
* `src/app/api/token-transfer/route.ts` — the server-side transfer builder;
* `src/app/page.tsx` — recipient classification, signing-response handling,
  signature decoding, gas-error classification, balance refresh (client side);
* the balances API route — server-side balance query.

JavaScript numbers are modelled exactly: a `Frac` is an unreduced integer
fraction (kernel-computable, unlike `Rat` whose normalisation is not
reducible by `decide`), and `roundToDouble` places an exact value on the
IEEE-754 binary64 grid with round-to-nearest-ties-to-even, so `parseFloat`
and floating-point multiplication behave as in the running program.
-/

set_option maxRecDepth 40000

namespace USDC

/-! ### Exact fractions (kernel-computable rationals) -/

/-- An integer fraction `num / den`.  Fractions are never normalised (no
`gcd`), so every arithmetic operation below reduces inside the kernel.
All fractions built by the model have a positive denominator. -/
structure Frac where
  num : ℤ
  den : ℤ
deriving DecidableEq

/-- The fraction `n / 1`. -/
def Frac.ofInt (n : ℤ) : Frac := ⟨n, 1⟩

/-- Addition of fractions (cross multiplication, no reduction). -/
def Frac.add (a b : Frac) : Frac := ⟨a.num * b.den + b.num * a.den, a.den * b.den⟩

/-- Multiplication of fractions. -/
def Frac.mul (a b : Frac) : Frac := ⟨a.num * b.num, a.den * b.den⟩

/-- Subtraction of fractions. -/
def Frac.sub (a b : Frac) : Frac := ⟨a.num * b.den - b.num * a.den, a.den * b.den⟩

/-- `a ≤ b` for fractions with positive denominators. -/
def Frac.le (a b : Frac) : Bool := a.num * b.den ≤ b.num * a.den

/-- `a < b` for fractions with positive denominators. -/
def Frac.lt (a b : Frac) : Bool := a.num * b.den < b.num * a.den

/-- Value equality of two fractions (they may have different representations). -/
def Frac.eqv (a b : Frac) : Prop := a.num * b.den = b.num * a.den

instance : DecidablePred (fun p : Frac × Frac => Frac.eqv p.1 p.2) :=
  fun _ => inferInstanceAs (Decidable (_ = _))

instance (a b : Frac) : Decidable (Frac.eqv a b) :=
  inferInstanceAs (Decidable (_ = _))

/-- Absolute value. -/
def Frac.abs (a : Frac) : Frac := ⟨|a.num|, a.den⟩

/-- Negation. -/
def Frac.neg (a : Frac) : Frac := ⟨-a.num, a.den⟩

/-- `⌊a⌋` for a fraction with positive denominator (floor division). -/
def Frac.floor (a : Frac) : ℤ := a.num.fdiv a.den

/-- Binary exponentiation with a structural fuel argument.  Evaluation depth
is logarithmic in the exponent, so it reduces without deep recursion
(`Nat.pow` unfolds linearly and overflows the evaluator on exponents such
as 1074). -/
def powBin (fuel : ℕ) (b n : ℕ) : ℕ :=
  match fuel with
  | 0 => 1
  | f + 1 =>
    if n = 0 then 1
    else
      let h := powBin f b (n / 2)
      if n % 2 = 0 then h * h else h * h * b

/-- `b ^ n` with logarithmic evaluation depth. -/
def natPow (b n : ℕ) : ℕ := powBin (n + 1) b n

/-- `2 ^ e` as a fraction, for `e : ℤ`. -/
def pow2F (e : ℤ) : Frac :=
  if 0 ≤ e then ⟨natPow 2 e.toNat, 1⟩ else ⟨1, natPow 2 (-e).toNat⟩

/-- `10 ^ e` as a fraction, for `e : ℤ`. -/
def pow10F (e : ℤ) : Frac :=
  if 0 ≤ e then ⟨natPow 10 e.toNat, 1⟩ else ⟨1, natPow 10 (-e).toNat⟩

/-- Fuel-driven base-2 logarithm (`Nat.log2` is well-founded recursive and
does not reduce in the kernel; this version is structural in its fuel). -/
def log2Fuel : ℕ → ℕ → ℕ
  | 0, _ => 0
  | f + 1, n => if 2 ≤ n then log2Fuel f (n / 2) + 1 else 0

/-- `⌊log₂ n⌋` for `1 ≤ n` (0 for `n = 0`). -/
def natLog2 (n : ℕ) : ℕ := log2Fuel n n

/-! ### IEEE-754 binary64 model -/

/-- A JavaScript number: NaN, an infinity, or a finite value.  Finite values
of the running program always lie on the binary64 grid; `roundToDouble`
puts them there. -/
inductive JSNum
  | nan
  | posInf
  | negInf
  | fin (q : Frac)
deriving DecidableEq

/-- Round a fraction (with positive denominator) to the nearest integer,
ties to even: IEEE-754 roundTiesToEven. -/
def roundHalfEven (m : Frac) : ℤ :=
  let n := m.floor
  let r := m.sub (Frac.ofInt n)
  if r.lt ⟨1, 2⟩ then n
  else if Frac.lt ⟨1, 2⟩ r then n + 1
  else if n % 2 = 0 then n else n + 1

/-- `⌊log₂ a⌋` for a positive fraction, found from the bit lengths of
numerator and denominator and a bounded local search. -/
def floorLog2F (a : Frac) : ℤ :=
  let e0 : ℤ := (natLog2 a.num.toNat : ℤ) - (natLog2 a.den.toNat : ℤ) - 1
  let cands := ([e0, e0 + 1, e0 + 2, e0 + 3].filter fun e => (pow2F e).le a)
  cands.foldl max e0

/-- Round an exact fraction to the nearest IEEE-754 binary64 value
(round-to-nearest, ties-to-even); overflow gives an infinity; values below
`2 ^ (-1022)` round on the fixed subnormal grid `2 ^ (-1074)`. -/
def roundToDouble (q : Frac) : JSNum :=
  if q.num = 0 then .fin (Frac.ofInt 0)
  else
    let a := q.abs
    let e : ℤ := max (floorLog2F a) (-1022)
    let g : ℤ := e - 52
    let n : ℤ := roundHalfEven (a.mul (pow2F (-g)))
    let r : Frac := (Frac.ofInt n).mul (pow2F g)
    if (pow2F 1024).le r then (if 0 < q.num then .posInf else .negInf)
    else .fin (if 0 < q.num then r else r.neg)

/-- `x !== x`-style NaN test. -/
def JSNum.isNaN : JSNum → Bool
  | .nan => true
  | _ => false

/-- The JS comparison `x <= 0` (false on NaN). -/
def JSNum.leZero : JSNum → Bool
  | .nan => false
  | .posInf => false
  | .negInf => true
  | .fin q => q.num ≤ 0

/-- IEEE-754 multiplication of two JS numbers. -/
def JSNum.mul (x y : JSNum) : JSNum :=
  match x, y with
  | .nan, _ => .nan
  | _, .nan => .nan
  | .posInf, .posInf => .posInf
  | .posInf, .negInf => .negInf
  | .negInf, .posInf => .negInf
  | .negInf, .negInf => .posInf
  | .posInf, .fin q => if q.num = 0 then .nan else if 0 < q.num then .posInf else .negInf
  | .negInf, .fin q => if q.num = 0 then .nan else if 0 < q.num then .negInf else .posInf
  | .fin q, .posInf => if q.num = 0 then .nan else if 0 < q.num then .posInf else .negInf
  | .fin q, .negInf => if q.num = 0 then .nan else if 0 < q.num then .negInf else .posInf
  | .fin a, .fin b => roundToDouble (a.mul b)

/-- `Math.floor`: exact on every finite double, identity on NaN/infinities. -/
def JSNum.mathFloor : JSNum → JSNum
  | .nan => .nan
  | .posInf => .posInf
  | .negInf => .negInf
  | .fin q => .fin (Frac.ofInt q.floor)

/-- `BigInt(x)`: defined for integer-valued finite numbers, throws otherwise.
The model is applied only after `Math.floor`, so the finite case is integral. -/
def JSNum.bigIntOfFloored : JSNum → Option ℤ
  | .fin q => some q.num
  | _ => none

/-! ### `parseFloat` -/

/-- JavaScript whitespace (`StrWhiteSpace`: WhiteSpace ∪ LineTerminator), as
skipped by `parseFloat` and removed by `String.prototype.trim`. -/
def jsWhitespace (c : Char) : Bool :=
  c.toNat ∈ [0x9, 0xA, 0xB, 0xC, 0xD, 0x20, 0xA0, 0x1680,
    0x2000, 0x2001, 0x2002, 0x2003, 0x2004, 0x2005, 0x2006, 0x2007,
    0x2008, 0x2009, 0x200A, 0x2028, 0x2029, 0x202F, 0x205F, 0x3000, 0xFEFF]

/-- The exact mathematical value read by `parseFloat`, before binary64
rounding: NaN, a signed infinity, or an exact decimal fraction. -/
inductive ParsedFloat
  | nan
  | inf (neg : Bool)
  | num (q : Frac)
deriving DecidableEq

/-- Numeric value of a decimal digit character. -/
def digitVal (c : Char) : ℕ := c.toNat - 48

/-- Value of a digit string, most significant first. -/
def digitsToNat (l : List Char) : ℕ := l.foldl (fun acc c => 10 * acc + digitVal c) 0

/-- Parse an optional exponent part `e`/`E` sign digits.  If the digits are
missing the exponent part is not consumed and contributes `0`, as in
`parseFloat("1e") = 1`. -/
def parseExponent (cs : List Char) : ℤ :=
  match cs with
  | 'e' :: rest =>
    parseExponentTail rest
  | 'E' :: rest =>
    parseExponentTail rest
  | _ => 0
where
  parseExponentTail (rest : List Char) : ℤ :=
    let (sgn, ds) : ℤ × List Char :=
      match rest with
      | '+' :: r => (1, r)
      | '-' :: r => (-1, r)
      | r => (1, r)
    let digs := ds.takeWhile Char.isDigit
    if digs.isEmpty then 0 else sgn * (digitsToNat digs : ℤ)

/-- Parse the unsigned part of a `StrDecimalLiteral`: either the keyword
`Infinity`, or digits with an optional fraction and exponent.  `parseFloat`
reads the longest valid numeric prefix and ignores the rest of the string. -/
def parseDecimalPart (cs : List Char) (neg : Bool) : ParsedFloat :=
  if cs.take 8 = "Infinity".toList then .inf neg
  else
    let intD := cs.takeWhile Char.isDigit
    let rest1 := cs.drop intD.length
    let (fracD, rest2) : List Char × List Char :=
      match rest1 with
      | '.' :: r => (r.takeWhile Char.isDigit, r.drop (r.takeWhile Char.isDigit).length)
      | _ => ([], rest1)
    if intD.isEmpty && fracD.isEmpty then .nan
    else
      let mant : Frac := (Frac.ofInt (digitsToNat intD)).add ⟨digitsToNat fracD, natPow 10 fracD.length⟩
      let ex : ℤ := parseExponent rest2
      let v : Frac := mant.mul (pow10F ex)
      .num (if neg then v.neg else v)

/-- The exact value read by `parseFloat s`: skip leading whitespace, read an
optional sign, then the longest decimal-literal prefix. -/
def parseFloatExact (s : String) : ParsedFloat :=
  match s.toList.dropWhile jsWhitespace with
  | '-' :: rest => parseDecimalPart rest true
  | '+' :: rest => parseDecimalPart rest false
  | rest => parseDecimalPart rest false

/-- `parseFloat` as executed by the program: the exact decimal value rounded
to the nearest binary64 number. -/
def parseFloat (s : String) : JSNum :=
  match parseFloatExact s with
  | .nan => .nan
  | .inf false => .posInf
  | .inf true => .negInf
  | .num q => roundToDouble q

/-! ### Base58 and `PublicKey` (`new PublicKey(string)` validation) -/

/-- Position of a character in the Bitcoin base58 alphabet used by the
ledger (no `0`, `O`, `I`, `l`). -/
def base58Index (c : Char) : Option ℕ :=
  "123456789ABCDEFGHJKLMNPQRSTUVWXYZabcdefghijkmnopqrstuvwxyz".toList.indexOf? c

/-- Big-endian byte expansion of a natural number (fuel-driven so that it
reduces in the kernel; 64 bytes of fuel covers every 44-character input). -/
def natToBytesFuel : ℕ → ℕ → List ℕ
  | 0, _ => []
  | f + 1, n => if n = 0 then [] else natToBytesFuel f (n / 256) ++ [n % 256]

/-- Base58 decoding: every character must be in the alphabet; each leading
`1` contributes one leading zero byte. -/
def decodeBase58 (l : List Char) : Option (List ℕ) :=
  if l.all (fun c => (base58Index c).isSome) then
    let value := l.foldl (fun acc c => 58 * acc + ((base58Index c).getD 0)) 0
    let leading := (l.takeWhile (fun c => c = '1')).length
    some (List.replicate leading 0 ++ natToBytesFuel 64 value)
  else none

/-- A ledger public key: 32 raw bytes. -/
structure PublicKey where
  bytes : List ℕ
deriving DecidableEq

/-- `new PublicKey(s)`: base58-decode and require exactly 32 bytes;
`none` models the constructor throwing. -/
def parsePublicKey (s : String) : Option PublicKey :=
  match decodeBase58 s.toList with
  | some bs => if bs.length = 32 then some ⟨bs⟩ else none
  | none => none

/-! ### The token-transfer route (`src/app/api/token-transfer/route.ts`) -/

/-- The devnet USDC mint address baked into the route (the environment
variables are unset in the modelled deployment, so the fallback is used). -/
def USDC_MINT_ADDRESS : String := "4zMMC9srt5Ri5X14GAgXhaHii3GnPAEERYPJgZJDncDU"

/-- An account address appearing in an instruction: either a public key or
the associated token address deterministically derived from a mint and an
owner.  The derivation (`getAssociatedTokenAddress`) is a pure function of
mint and owner; its hash output never matters to the route, so it is kept
symbolic. -/
inductive Addr
  | key (k : PublicKey)
  | ata (mint owner : PublicKey)
deriving DecidableEq

/-- `getAssociatedTokenAddress(mint, owner)`. -/
def getAssociatedTokenAddress (mint owner : PublicKey) : Addr := .ata mint owner

/-- The two instruction kinds the route can build. -/
inductive Instruction
  | createAssociatedTokenAccount (payer : PublicKey) (account : Addr)
      (owner : PublicKey) (mint : PublicKey)
  | transfer (source : Addr) (dest : Addr) (owner : PublicKey) (amount : ℤ)
deriving DecidableEq

/-- The compiled v0 message: payer, recent blockhash and the ordered
instruction list (serialisation kept abstract). -/
structure VersionedTransaction where
  payerKey : PublicKey
  recentBlockhash : String
  instructions : List Instruction
deriving DecidableEq

/-- A JSON response from the route: success carries the transaction and the
human message, failure carries the HTTP status and the error string. -/
inductive RouteResponse
  | ok (transaction : VersionedTransaction) (message : String)
  | err (status : ℕ) (error : String)
deriving DecidableEq

/-- HTTP status of a response. -/
def RouteResponse.statusCode : RouteResponse → ℕ
  | .ok _ _ => 200
  | .err s _ => s

/-- Did the route return a serialized transaction? -/
def RouteResponse.isOk : RouteResponse → Bool
  | .ok _ _ => true
  | .err _ _ => false

/-- Amounts of the transfer instructions of a built transaction (empty on
errors). -/
def RouteResponse.transferAmounts : RouteResponse → List ℤ
  | .ok tx _ => tx.instructions.filterMap fun i =>
      match i with
      | .transfer _ _ _ a => some a
      | _ => none
  | .err _ _ => []

/-- The `POST` handler of `src/app/api/token-transfer/route.ts`.

Inputs: the three request-body fields (absent fields are the empty string,
matching the JS falsiness test), whether the recipient token account exists
on-ledger (`getAccount` succeeding), and the blockhash returned by the RPC
node.  Every network effect is passed in, making the handler a function. -/
def tokenTransferPOST (fromStr toStr amountStr : String)
    (recipientAccountExists : Bool) (blockhash : String) : RouteResponse :=
  if fromStr = "" ∨ toStr = "" ∨ amountStr = "" then
    .err 400 "Missing required fields: from, to, amount"
  else
    match parsePublicKey fromStr, parsePublicKey toStr with
    | some fromPublicKey, some toPublicKey =>
      let amountNum := parseFloat amountStr
      if amountNum.isNaN || amountNum.leZero then .err 400 "Invalid amount"
      else if USDC_MINT_ADDRESS = "" then .err 500 "USDC mint address not configured"
      else
        match parsePublicKey USDC_MINT_ADDRESS with
        | none => .err 500 "Failed to create transfer transaction"
        | some usdcMint =>
          let fromTokenAccount := getAssociatedTokenAddress usdcMint fromPublicKey
          let toTokenAccount := getAssociatedTokenAddress usdcMint toPublicKey
          let transferAmount := (JSNum.mul amountNum (.fin (Frac.ofInt 1000000))).mathFloor
          match transferAmount.bigIntOfFloored with
          | none => .err 500 "Failed to create transfer transaction"
          | some units =>
            let instructions :=
              (if recipientAccountExists then [] else
                [Instruction.createAssociatedTokenAccount fromPublicKey
                  toTokenAccount toPublicKey usdcMint]) ++
              [Instruction.transfer fromTokenAccount toTokenAccount fromPublicKey units]
            .ok ⟨fromPublicKey, blockhash, instructions⟩
              ("Transfer " ++ amountStr ++ " USDC")
    | _, _ => .err 400 "Invalid Solana address format"

/-- The spec-side conversion: `floor(amount × 10^decimals)` on the exact
positive decimal value of the amount string (decimals = 6). -/
def specSmallestUnits (amount : String) : Option ℤ :=
  match parseFloatExact amount with
  | .num q => if 0 < q.num then some ((q.mul (Frac.ofInt 1000000)).floor) else none
  | _ => none

/-- A syntactically valid 32-byte address (the system program id), used as a
concrete sender/recipient in witnesses. -/
def onesAddress : String := "11111111111111111111111111111111"

/-! ### Recipient classification (`src/app/page.tsx`) -/

/-- `s.trim()`: drop JS whitespace from both ends of the character list. -/
def trimList (l : List Char) : List Char :=
  ((l.dropWhile jsWhitespace).reverse.dropWhile jsWhitespace).reverse

/-- Characters of the regex class `[1-9A-HJ-NP-Za-km-z]` (the ledger's
base58 alphabet). -/
def isBase58Char (c : Char) : Bool :=
  ('1' ≤ c && c ≤ '9') || ('A' ≤ c && c ≤ 'H') || ('J' ≤ c && c ≤ 'N') ||
  ('P' ≤ c && c ≤ 'Z') || ('a' ≤ c && c ≤ 'k') || ('m' ≤ c && c ≤ 'z')

/-- `isValidWalletAddress`: the trimmed input matches
`/^[1-9A-HJ-NP-Za-km-z]{32,44}$/`. -/
def isValidWalletAddressL (address : List Char) : Bool :=
  let t := trimList address
  32 ≤ t.length && t.length ≤ 44 && t.all isBase58Char

/-- Characters of the local-part class of the email regex,
`[a-zA-Z0-9.!#$%&'*+/=?^_`{|}~-]` (apostrophe and backtick written by code
point). -/
def isEmailLocalChar (c : Char) : Bool :=
  c.isAlpha || c.isDigit ||
  c ∈ ['.', '!', '#', '$', '%', '&', Char.ofNat 39, '*', '+', '/', '=',
       '?', '^', '_', Char.ofNat 96, '{', '|', '}', '~', '-']

/-- `[a-zA-Z0-9]`. -/
def isLabelChar (c : Char) : Bool := c.isAlpha || c.isDigit

/-- One domain label of the email regex:
`[a-zA-Z0-9](?:[a-zA-Z0-9-]{0,61}[a-zA-Z0-9])?` — 1 to 63 characters,
alphanumeric at both ends, alphanumeric or hyphen in between. -/
def emailLabelOk (l : List Char) : Bool :=
  !l.isEmpty && l.length ≤ 63 &&
  l.head?.all isLabelChar && l.getLast?.all isLabelChar &&
  ((l.drop 1).dropLast.all fun c => isLabelChar c || c = '-')

/-- The domain of the email regex: `label(?:\.label)*`. -/
def emailDomainOk (l : List Char) : Bool :=
  (l.splitOn '.').all emailLabelOk

/-- `emailRegex.test t` for the anchored pattern
`^[a-zA-Z0-9.!#$%&'*+/=?^_`{|}~-]+@domain$`.  Both character classes
exclude `@`, so a match decomposes the string at its first `@`. -/
def emailRegexTest (l : List Char) : Bool :=
  let loc := l.takeWhile fun c => c ≠ '@'
  match l.drop loc.length with
  | '@' :: dom => !loc.isEmpty && loc.all isEmailLocalChar && emailDomainOk dom
  | _ => false

/-- `isValidEmail`: trimmed length ≤ 254, `split("@")` yields exactly two
parts (`count("@") + 1 = 2`), and the regex matches. -/
def isValidEmailL (email : List Char) : Bool :=
  let trimmedEmail := trimList email
  if 254 < trimmedEmail.length then false
  else if trimmedEmail.count '@' + 1 ≠ 2 then false
  else emailRegexTest trimmedEmail

/-- Result of `detectInputType`. -/
inductive InputType
  | address
  | email
  | invalid
deriving DecidableEq

/-- `detectInputType` of `src/app/page.tsx`. -/
def detectInputTypeL (input : List Char) : InputType :=
  let trimmed := trimList input
  if trimmed.isEmpty then .invalid
  else if trimmed.contains '@' then
    (if isValidEmailL trimmed then .email else .invalid)
  else
    (if isValidWalletAddressL trimmed then .address else .invalid)

/-- `detectInputType` on a `String`. -/
def detectInputType (input : String) : InputType := detectInputTypeL input.toList

/-- `isValidWalletAddress` on a `String`. -/
def isValidWalletAddress (address : String) : Bool := isValidWalletAddressL address.toList

/-- `isValidEmail` on a `String`. -/
def isValidEmail (email : String) : Bool := isValidEmailL email.toList

/-! ### Gas-error classification (`isInsufficientGasError`) -/

/-- A JavaScript runtime value, as far as the classifier inspects it:
a string, an `Error` object carrying a message, or something else
(`null`, `undefined`, a number, a plain object, …). -/
inductive JSValue
  | str (s : String)
  | errorObj (message : String)
  | nullV
  | undefinedV
  | number (n : JSNum)
  | plainObj
deriving DecidableEq

/-- Lower-casing as `toLowerCase` acts on the ASCII keywords involved. -/
def jsToLower (l : List Char) : List Char := l.map Char.toLower

/-- Does `needle` occur at the start of `hay`? -/
def startsWithL (needle : List Char) : List Char → Bool
  | hay =>
    match needle, hay with
    | [], _ => true
    | _ :: _, [] => false
    | n :: ns, h :: hs => n = h && startsWithL ns hs

/-- `hay.includes(needle)`: does `needle` occur contiguously in `hay`? -/
def includesSub (needle : List Char) : List Char → Bool
  | [] => needle.isEmpty
  | h :: t => startsWithL needle (h :: t) || includesSub needle t

/-- Outcome of a JavaScript computation that can throw: the value, or the
message of the thrown `Error`. -/
inductive JsResult (α : Type)
  | ok (val : α)
  | thrown (msg : String)
deriving DecidableEq

/-- The keyword list of `isInsufficientGasError` (identical in both
branches of the source). -/
def insufficientGasKeywords : List (List Char) :=
  ["insufficient funds".toList, "insufficient balance".toList,
   "insufficient lamports".toList, "not enough".toList,
   "insufficient sol".toList]

/-- `isInsufficientGasError` of `src/app/page.tsx`: lower-case the string
(or the `Error` message) and look for any keyword as a substring; every
non-string non-`Error` value yields `false`. -/
def isInsufficientGasError (error : JSValue) : Bool :=
  match error with
  | .str s =>
    let errorLower := jsToLower s.toList
    insufficientGasKeywords.any fun keyword => includesSub keyword errorLower
  | .errorObj message =>
    let errorMessage := jsToLower message.toList
    insufficientGasKeywords.any fun keyword => includesSub keyword errorMessage
  | _ => false

/-! ### Signing-response handling (`handleSend`, lines 588–627) -/

/-- The part of the external signer's `signTransaction` response inspected
by `handleSend`; `signature = none` models a missing field and `some ""`
an empty one (both falsy in the source). -/
structure SignTxResponse where
  status : String
  signature : Option String
deriving DecidableEq

/-- The status and signature-presence checks of `handleSend`: either the
flow proceeds with the signature string, or it throws the given error
message. -/
def checkSignResponse (signed : Option SignTxResponse) : JsResult String :=
  match signed with
  | none => .thrown "Transaction signing failed (UNKNOWN)"
  | some r =>
    if r.status ≠ "SUCCESS" then
      let status := if r.status = "" then "UNKNOWN" else r.status
      if status = "USER_REQUEST_DENIED" || status = "USER_CONSENT_DENIED" then
        .thrown "User denied transaction signing"
      else
        .thrown ("Transaction signing failed (" ++ status ++ ")")
    else
      match r.signature with
      | none => .thrown "MetaKeep did not return a transaction signature"
      | some sig =>
        if sig = "" then .thrown "MetaKeep did not return a transaction signature"
        else .ok sig

/-- `sigStr.startsWith("0x") ? sigStr.slice(2) : sigStr`. -/
def strip0x (l : List Char) : List Char :=
  match l with
  | '0' :: 'x' :: rest => rest
  | _ => l

/-- Hexadecimal digit test. -/
def isHexDigit (c : Char) : Bool :=
  c.isDigit || ('a' ≤ c && c ≤ 'f') || ('A' ≤ c && c ≤ 'F')

/-- Value of a hexadecimal digit. -/
def hexVal (c : Char) : ℕ :=
  if c.isDigit then c.toNat - 48
  else if 'a' ≤ c && c ≤ 'f' then c.toNat - 87
  else c.toNat - 55

/-- `Buffer.from(s, "hex")` with Node semantics: decode two-digit pairs
from the left and stop silently at the first invalid pair or odd trailing
digit; this never throws. -/
def bufferFromHex : List Char → List ℕ
  | c1 :: c2 :: rest =>
    if isHexDigit c1 && isHexDigit c2 then
      (16 * hexVal c1 + hexVal c2) :: bufferFromHex rest
    else []
  | _ => []

/-- Strict hex decoding, as the specification words it: the whole remainder
must be hex digits of even length, otherwise decoding fails. -/
def decodeHexStrict (l : List Char) : Option (List ℕ) :=
  if l.all isHexDigit && l.length % 2 = 0 then some (bufferFromHex l) else none

/-- The signature-splicing step of `handleSend`: strip an optional `0x`
prefix, decode with Node hex semantics, then
`VersionedTransaction.addSignature`, whose assertion demands exactly 64
bytes and throws otherwise. -/
def spliceSignature (sigStr : String) : JsResult (List ℕ) :=
  let signatureBytes := bufferFromHex (strip0x sigStr.toList)
  if signatureBytes.length = 64 then .ok signatureBytes
  else .thrown "Signature must be 64 bytes long"

/-! ### Balances route and client-side refresh -/

/-- The devnet USDC mint address baked into the balances route. -/
def BALANCES_USDC_MINT_ADDRESS : String := "6a3ytKTopkEyymNB1MsKkGKUHP6J3oafHMzkSBpTKRfd"

/-- Outcome of the `getAccount` call for the derived token account. -/
inductive AccountFetch
  | found (amount : ℕ)
  | missing
  | rpcFailure (msg : String)
deriving DecidableEq

/-- Outcome of the `getBalance` call. -/
inductive LamportsFetch
  | ok (lamports : ℕ)
  | rpcFailure (msg : String)
deriving DecidableEq

/-- Environment of one `GET /api/balances` request: the query parameter and
the results of the two ledger queries. -/
structure BalancesEnv where
  address : Option String
  getBalance : LamportsFetch
  getAccount : AccountFetch
deriving DecidableEq

/-- Body of a successful balances response. -/
structure BalancesBody where
  solBalance : Frac
  usdcBalance : Frac
deriving DecidableEq

/-- A balances-route response. -/
inductive BalancesResponse
  | ok (body : BalancesBody)
  | err (status : ℕ) (error : String)
deriving DecidableEq

/-- Rounding performed by `parseFloat(x.toFixed(k))`: nearest multiple of
`10 ^ (-k)`, ties to the larger value. -/
def roundToFixed (q : Frac) (k : ℕ) : Frac :=
  ⟨(2 * q.num * natPow 10 k + q.den).fdiv (2 * q.den), (natPow 10 k : ℕ)⟩

/-- The `GET` handler of the balances route: validate the address, fetch
the native balance, then the token balance via the derived sub-account —
`usdcBalance` stays `0` when `getAccount` throws for any reason (missing
account or failed lookup); a `getBalance` failure reaches the outer catch
and becomes a 500. -/
def balancesGET (env : BalancesEnv) : BalancesResponse :=
  match env.address with
  | none => .err 400 "Missing wallet address"
  | some address =>
    match parsePublicKey address with
    | none => .err 400 "Invalid Solana address"
    | some _ =>
      if BALANCES_USDC_MINT_ADDRESS = "" then .err 500 "USDC mint address not configured"
      else
        match parsePublicKey BALANCES_USDC_MINT_ADDRESS with
        | none => .err 500 "Failed to fetch balances"
        | some _ =>
          match env.getBalance with
          | .rpcFailure _ => .err 500 "Failed to fetch balances"
          | .ok lamports =>
            let solBalance : Frac := ⟨lamports, 1000000000⟩
            let usdcBalance : Frac :=
              match env.getAccount with
              | .found amount => ⟨amount, 1000000⟩
              | _ => Frac.ofInt 0
            .ok ⟨roundToFixed solBalance 3, roundToFixed usdcBalance 2⟩

/-- A fetch of `/api/balances` as seen by the client: the network call
itself failed, or a response arrived. -/
inductive FetchResult
  | networkFailure (msg : String)
  | response (r : BalancesResponse)
deriving DecidableEq

/-- The `try` body of the client's `fetchBalances` (throws on a non-ok
response and on network failure). -/
def fetchBalancesTry (f : FetchResult) : JsResult (Frac × Frac) :=
  match f with
  | .networkFailure msg => .thrown msg
  | .response (.err _ e) => .thrown e
  | .response (.ok body) => .ok (body.solBalance, body.usdcBalance)

/-- `fetchBalances` of `src/app/page.tsx`: its catch handler maps every
failure to zero balances, so the function never throws to its caller. -/
def fetchBalances (f : FetchResult) : Frac × Frac :=
  match fetchBalancesTry f with
  | .ok b => b
  | .thrown _ => (Frac.ofInt 0, Frac.ofInt 0)

/-- One full balance refresh: the client call around the server route;
`network = some msg` means the HTTP request itself failed. -/
def refreshBalances (network : Option String) (env : BalancesEnv) : Frac × Frac :=
  match network with
  | some msg => fetchBalances (.networkFailure msg)
  | none => fetchBalances (.response (balancesGET env))

/-- Did the balances route answer 200? -/
def BalancesResponse.isOkResp : BalancesResponse → Bool
  | .ok _ => true
  | .err _ _ => false

/-! ### Spec-side predicates and instruction extractors -/

/-- The specification's address condition on the trimmed input: 32–44
characters drawn from the ledger's base58 alphabet. -/
def specAddressFormat (t : List Char) : Prop :=
  32 ≤ t.length ∧ t.length ≤ 44 ∧ ∀ c ∈ t, isBase58Char c = true

/-- The specification's email condition on the trimmed input: contains `@`,
at most 254 characters, splits into exactly two parts on `@`, and matches
the email pattern. -/
def specEmailFormat (t : List Char) : Prop :=
  t.contains '@' = true ∧ t.length ≤ 254 ∧ t.count '@' = 1 ∧ emailRegexTest t = true

/-- Is an instruction the token transfer? -/
def Instruction.isTransfer : Instruction → Bool
  | .transfer _ _ _ _ => true
  | _ => false

/-- Is an instruction the create-sub-account instruction? -/
def Instruction.isCreate : Instruction → Bool
  | .createAssociatedTokenAccount _ _ _ _ => true
  | _ => false

/-- The payer of a create-sub-account instruction. -/
def Instruction.createPayer : Instruction → Option PublicKey
  | .createAssociatedTokenAccount payer _ _ _ => some payer
  | _ => none

/-- Instruction list of a response (empty on errors). -/
def RouteResponse.instructionsOf : RouteResponse → List Instruction
  | .ok tx _ => tx.instructions
  | .err _ _ => []

/-- A signer signature string whose first 128 characters after the `0x`
prefix are valid hex digits but whose remainder is not valid hex. -/
def badSig : String := String.mk (['0', 'x'] ++ List.replicate 128 'a' ++ ['z', 'z'])

/-- The 32 raw bytes of the transfer route's USDC mint address. -/
def usdcMintKey : PublicKey :=
  ⟨[59, 68, 44, 179, 145, 33, 87, 241, 58, 147, 61, 1, 52, 40, 45, 3, 43, 95,
    254, 205, 1, 162, 219, 241, 183, 121, 6, 8, 223, 0, 46, 167]⟩

/-- The all-zero public key, i.e. the decoding of `onesAddress`. -/
def zeroKey : PublicKey := ⟨List.replicate 32 0⟩

end USDC

namespace USDC

/-! ### Lemmas about trimming and character membership -/

theorem dropWhile_idem {α} (p : α → Bool) (l : List α) :
    (l.dropWhile p).dropWhile p = l.dropWhile p := by
  induction l with
  | nil => rfl
  | cons a l ih =>
    by_cases h : p a
    · simp [List.dropWhile_cons, h, ih]
    · simp [List.dropWhile_cons, h]

theorem head?_dropWhile_false {α} (p : α → Bool) (l : List α) :
    ∀ a, (l.dropWhile p).head? = some a → p a = false := by
  induction l with
  | nil => intro a h; simp at h
  | cons b l ih =>
    intro a h
    by_cases hb : p b
    · rw [List.dropWhile_cons, if_pos hb] at h
      exact ih a h
    · rw [List.dropWhile_cons, if_neg hb] at h
      simp only [List.head?_cons, Option.some.injEq] at h
      rw [← h]
      simpa using hb

theorem dropWhile_eq_self_of_head {α} (p : α → Bool) (l : List α)
    (h : ∀ a, l.head? = some a → p a = false) : l.dropWhile p = l := by
  cases l with
  | nil => rfl
  | cons a l =>
    rw [List.dropWhile_cons, if_neg]
    simp [h a rfl]

theorem trimList_idem (l : List Char) : trimList (trimList l) = trimList l := by
  unfold trimList
  have hX : ((l.dropWhile jsWhitespace).reverse.dropWhile jsWhitespace).dropWhile jsWhitespace
      = (l.dropWhile jsWhitespace).reverse.dropWhile jsWhitespace :=
    dropWhile_idem _ _
  have h1 : ((l.dropWhile jsWhitespace).reverse.dropWhile jsWhitespace).reverse.dropWhile
      jsWhitespace
      = ((l.dropWhile jsWhitespace).reverse.dropWhile jsWhitespace).reverse := by
    apply dropWhile_eq_self_of_head
    intro a ha
    obtain ⟨C, hC⟩ :=
      (List.dropWhile_suffix (l := (l.dropWhile jsWhitespace).reverse) jsWhitespace)
    have hrev : l.dropWhile jsWhitespace
        = ((l.dropWhile jsWhitespace).reverse.dropWhile jsWhitespace).reverse ++ C.reverse := by
      calc l.dropWhile jsWhitespace = (l.dropWhile jsWhitespace).reverse.reverse := by
            rw [List.reverse_reverse]
        _ = (C ++ (l.dropWhile jsWhitespace).reverse.dropWhile jsWhitespace).reverse := by
            rw [hC]
        _ = _ := by rw [List.reverse_append]
    apply head?_dropWhile_false jsWhitespace l a
    rw [hrev]
    cases hR : ((l.dropWhile jsWhitespace).reverse.dropWhile jsWhitespace).reverse with
    | nil => rw [hR] at ha; simp at ha
    | cons x xs =>
      rw [hR] at ha
      simp only [List.head?_cons, Option.some.injEq] at ha
      simp [ha]
  rw [h1, List.reverse_reverse, hX]

theorem contains_iff_mem (t : List Char) (c : Char) : t.contains c = true ↔ c ∈ t := by
  simp [List.contains]

/-! ### C2, C9, C10 -/

/-- C2: after trimming, classification returns `address` exactly for 32–44
base58 characters, `email` exactly for a ≤254-character string with exactly
one `@` matching the email pattern, and `invalid` for every other
non-empty string. -/
theorem detectInputType_classification (s : String) :
    (detectInputType s = .address ↔ specAddressFormat (trimList s.toList)) ∧
    (detectInputType s = .email ↔ specEmailFormat (trimList s.toList)) ∧
    (trimList s.toList ≠ [] → ¬specAddressFormat (trimList s.toList) →
      ¬specEmailFormat (trimList s.toList) → detectInputType s = .invalid) := by
  have hidem := trimList_idem s.toList
  set t := trimList s.toList with ht
  have hdetect : detectInputType s =
      (if t.isEmpty then .invalid
       else if t.contains '@' then (if isValidEmailL t then .email else .invalid)
       else (if isValidWalletAddressL t then .address else .invalid)) := rfl
  have haddr : isValidWalletAddressL t = true ↔ specAddressFormat t := by
    unfold isValidWalletAddressL specAddressFormat
    rw [hidem]
    simp [List.all_eq_true, and_assoc]
  have hemail : isValidEmailL t = true ↔
      (t.length ≤ 254 ∧ t.count '@' = 1 ∧ emailRegexTest t = true) := by
    simp only [isValidEmailL, hidem]
    split_ifs with h1 h2
    · constructor
      · intro h; simp at h
      · rintro ⟨hl, -, -⟩; omega
    · constructor
      · intro h; simp at h
      · rintro ⟨-, hc, -⟩; omega
    · constructor
      · intro h; exact ⟨by omega, by omega, h⟩
      · rintro ⟨-, -, h⟩; exact h
  by_cases hE : t.isEmpty
  · have ht0 : t = [] := by simpa using hE
    rw [hdetect, if_pos hE]
    refine ⟨⟨fun h => absurd h (by decide), fun hspec => ?_⟩,
      ⟨fun h => absurd h (by decide), fun hspec => ?_⟩, fun hne _ _ => absurd ht0 hne⟩
    · rw [ht0] at hspec
      rcases hspec with ⟨h32, -, -⟩
      simp at h32
    · rw [ht0] at hspec
      rcases hspec with ⟨hc, -⟩
      simp at hc
  · by_cases hAt : t.contains '@'
    · rw [hdetect, if_neg hE, if_pos hAt]
      have haddr_false : ¬specAddressFormat t := by
        rintro ⟨-, -, hall⟩
        have hmem : '@' ∈ t := (contains_iff_mem t '@').mp hAt
        exact absurd (hall '@' hmem) (by decide)
      refine ⟨?_, ?_, ?_⟩
      · constructor
        · intro h
          split_ifs at h <;> exact absurd h (by decide)
        · intro hspec; exact absurd hspec haddr_false
      · by_cases h2 : isValidEmailL t
        · rw [if_pos h2]
          exact ⟨fun _ => ⟨hAt, hemail.mp h2⟩, fun _ => rfl⟩
        · rw [if_neg h2]
          constructor
          · intro h; exact absurd h (by decide)
          · rintro ⟨-, hrest⟩; exact absurd (hemail.mpr hrest) h2
      · intro _ _ hnoemail
        by_cases h2 : isValidEmailL t
        · exact absurd ⟨hAt, hemail.mp h2⟩ hnoemail
        · rw [if_neg h2]
    · rw [hdetect, if_neg hE, if_neg hAt]
      have hemail_false : ¬specEmailFormat t := by
        rintro ⟨hc, -⟩; exact absurd hc hAt
      refine ⟨?_, ?_, ?_⟩
      · by_cases h2 : isValidWalletAddressL t
        · rw [if_pos h2]
          exact ⟨fun _ => haddr.mp h2, fun _ => rfl⟩
        · rw [if_neg h2]
          constructor
          · intro h; exact absurd h (by decide)
          · intro hspec; exact absurd (haddr.mpr hspec) h2
      · constructor
        · intro h
          split_ifs at h <;> exact absurd h (by decide)
        · intro hspec; exact absurd hspec hemail_false
      · intro _ hnoaddr _
        by_cases h2 : isValidWalletAddressL t
        · exact absurd (haddr.mp h2) hnoaddr
        · rw [if_neg h2]

theorem detectInputType_classification_witness :
    detectInputType "satoshi@example.com" = .email :=
  (detectInputType_classification "satoshi@example.com").2.1.mpr
    ⟨by decide, by decide, by decide, by decide⟩

/-- C9: an input that is empty or all whitespace classifies as `invalid`. -/
theorem detectInputType_whitespace (s : String)
    (h : ∀ c ∈ s.toList, jsWhitespace c = true) : detectInputType s = .invalid := by
  have h1 : s.toList.dropWhile jsWhitespace = [] := by
    rw [List.dropWhile_eq_nil_iff]
    exact fun a ha => by rw [h a ha]
  have h2 : trimList s.toList = [] := by
    unfold trimList
    rw [h1]
    rfl
  have h2d : trimList s.data = [] := h2
  simp [detectInputType, detectInputTypeL, h2, h2d]

theorem detectInputType_whitespace_witness : detectInputType "  " = .invalid :=
  detectInputType_whitespace "  " (by decide)

/-- C10: a failure signal that is neither a string nor an `Error` object is
never classified as insufficient gas. -/
theorem isInsufficientGasError_nonstring (v : JSValue)
    (hs : ∀ s, v ≠ .str s) (he : ∀ m, v ≠ .errorObj m) :
    isInsufficientGasError v = false := by
  cases v with
  | str s => exact absurd rfl (hs s)
  | errorObj m => exact absurd rfl (he m)
  | nullV => rfl
  | undefinedV => rfl
  | number n => rfl
  | plainObj => rfl

theorem isInsufficientGasError_nonstring_witness :
    isInsufficientGasError .nullV = false :=
  isInsufficientGasError_nonstring .nullV (fun _ h => JSValue.noConfusion h)
    (fun _ h => JSValue.noConfusion h)

end USDC

namespace USDC

/-! ### C5: signing-response status handling -/

theorem signingFailed_ne_denied (x : String) :
    ("Transaction signing failed (" ++ x ++ ")") ≠ "User denied transaction signing" := by
  intro h
  have h' := congrArg String.data h
  rw [String.data_append, String.data_append] at h'
  have hA : "Transaction signing failed (".data
      = 'T' :: "ransaction signing failed (".data := rfl
  have hU : "User denied transaction signing".data
      = 'U' :: "ser denied transaction signing".data := rfl
  rw [hA, hU, List.cons_append, List.cons_append] at h'
  injection h' with h1 h2
  exact absurd h1 (by decide)

/-- C5: the signing step proceeds only on status SUCCESS; the two denial
statuses (and only they) throw the user-denial error; every other status
throws the generic signing failure, as does a SUCCESS response with no
signature, and a null response. -/
theorem checkSignResponse_classification :
    (∀ r : SignTxResponse, ∀ sig, checkSignResponse (some r) = .ok sig →
      r.status = "SUCCESS") ∧
    (∀ r : SignTxResponse,
      r.status = "USER_REQUEST_DENIED" ∨ r.status = "USER_CONSENT_DENIED" →
      checkSignResponse (some r) = .thrown "User denied transaction signing") ∧
    (∀ r : SignTxResponse, r.status ≠ "SUCCESS" →
      r.status ≠ "USER_REQUEST_DENIED" → r.status ≠ "USER_CONSENT_DENIED" →
      checkSignResponse (some r) =
        .thrown ("Transaction signing failed ("
          ++ (if r.status = "" then "UNKNOWN" else r.status) ++ ")")) ∧
    (∀ r : SignTxResponse,
      checkSignResponse (some r) = .thrown "User denied transaction signing" →
      r.status = "USER_REQUEST_DENIED" ∨ r.status = "USER_CONSENT_DENIED") ∧
    (∀ r : SignTxResponse, r.status = "SUCCESS" → r.signature = none →
      checkSignResponse (some r) =
        .thrown "MetaKeep did not return a transaction signature") ∧
    checkSignResponse none = .thrown "Transaction signing failed (UNKNOWN)" := by
  refine ⟨?_, ?_, ?_, ?_, ?_, rfl⟩
  · intro r sig h
    by_contra hs
    simp only [checkSignResponse] at h
    rw [if_pos hs] at h
    split_ifs at h <;> exact JsResult.noConfusion h
  · rintro r (h | h) <;> simp [checkSignResponse, h]
  · intro r h1 h2 h3
    by_cases hb : r.status = ""
    · simp [checkSignResponse, h1, hb]
    · simp [checkSignResponse, h1, h2, h3, hb]
  · intro r h
    by_cases hs : r.status = "SUCCESS"
    · exfalso
      rcases hsig : r.signature with _ | sig
      · simp [checkSignResponse, hs, hsig] at h
      · by_cases hempty : sig = "" <;> simp [checkSignResponse, hs, hsig, hempty] at h
    · by_cases h1 : r.status = "USER_REQUEST_DENIED"
      · exact Or.inl h1
      · by_cases h2 : r.status = "USER_CONSENT_DENIED"
        · exact Or.inr h2
        · exfalso
          by_cases hb : r.status = ""
          · simp [checkSignResponse, hs, h1, h2, hb] at h
          · simp [checkSignResponse, hs, h1, h2, hb] at h
            exact absurd h (signingFailed_ne_denied r.status)
  · intro r hs hsig
    simp [checkSignResponse, hs, hsig]

theorem checkSignResponse_classification_witness :
    checkSignResponse (some ⟨"USER_REQUEST_DENIED", none⟩)
      = .thrown "User denied transaction signing" :=
  checkSignResponse_classification.2.1 ⟨"USER_REQUEST_DENIED", none⟩ (Or.inl rfl)

/-! ### C4: signature decoding and the 64-byte gate -/

theorem bufferFromHex_length : ∀ l : List Char, l.all isHexDigit = true →
    l.length % 2 = 0 → 2 * (bufferFromHex l).length = l.length
  | [], _, _ => by simp [bufferFromHex]
  | [c], _, heven => by simp at heven
  | c1 :: c2 :: rest, hhex, heven => by
    simp only [List.all_cons, Bool.and_eq_true] at hhex
    have hr := bufferFromHex_length rest hhex.2.2 (by
      simp only [List.length_cons] at heven
      omega)
    simp only [bufferFromHex, hhex.1, hhex.2.1, Bool.and_self, if_pos, List.length_cons]
    omega

/-- C4 (amended): the signing step strips an optional `0x` prefix and
hex-decodes with Node semantics, i.e. the longest valid prefix of hex
pairs; the attempt fails exactly when the decoded byte length differs from
64, so a fully valid 128-digit hex remainder yields those 64 bytes — but a
remainder whose first 128 characters are hex digits is accepted even if
the rest is not valid hex. -/
theorem spliceSignature_length_gate :
    (∀ sigStr : String,
      (bufferFromHex (strip0x sigStr.toList)).length ≠ 64 →
      spliceSignature sigStr = .thrown "Signature must be 64 bytes long") ∧
    (∀ sigStr : String, ∀ bs,
      decodeHexStrict (strip0x sigStr.toList) = some bs → bs.length = 64 →
      spliceSignature sigStr = .ok bs) ∧
    (∀ l : List Char, l.all isHexDigit = true → l.length % 2 = 0 →
      2 * (bufferFromHex l).length = l.length) := by
  refine ⟨?_, ?_, bufferFromHex_length⟩
  · intro s h
    unfold spliceSignature
    rw [if_neg h]
  · intro s bs hdec hlen
    have hbs : bs = bufferFromHex (strip0x s.toList) := by
      unfold decodeHexStrict at hdec
      split_ifs at hdec
      · simpa using hdec.symm
    unfold spliceSignature
    rw [← hbs, if_pos hlen]

theorem spliceSignature_length_gate_witness :
    spliceSignature (String.mk (List.replicate 128 'a')) = .ok (List.replicate 64 170) :=
  spliceSignature_length_gate.2.1 (String.mk (List.replicate 128 'a'))
    (List.replicate 64 170) (by decide) (by decide)

/-- C4 counterexample: a signature string whose remainder after `0x` is not
valid hex (so the specified strict decoding fails) still produces a signed
transaction, because Node hex decoding silently truncates at the first
invalid pair and the surviving prefix has exactly 64 bytes. -/
theorem spliceSignature_lenient_counterexample :
    decodeHexStrict (strip0x badSig.toList) = none ∧
    spliceSignature badSig = .ok (List.replicate 64 170) := by
  constructor <;> decide

end USDC

namespace USDC

/-! ### Lemmas about the transfer route -/

theorem parsePublicKey_ne_empty {s : String} {pk : PublicKey}
    (h : parsePublicKey s = some pk) : s ≠ "" := by
  intro he
  subst he
  rw [(by decide : parsePublicKey "" = (none : Option PublicKey))] at h
  exact Option.noConfusion h

/-- The successful branch of the transfer route, fully explicit. -/
theorem tokenTransferPOST_ok_eq (fromStr toStr amountStr : String) (rexists : Bool)
    (bh : String) (fromPK toPK mint : PublicKey) (u : ℤ)
    (hf : parsePublicKey fromStr = some fromPK) (ht : parsePublicKey toStr = some toPK)
    (hm : parsePublicKey USDC_MINT_ADDRESS = some mint)
    (hnan : (parseFloat amountStr).isNaN = false)
    (hpos : (parseFloat amountStr).leZero = false)
    (hu : ((parseFloat amountStr).mul (JSNum.fin (Frac.ofInt 1000000))).mathFloor.bigIntOfFloored
      = some u) :
    tokenTransferPOST fromStr toStr amountStr rexists bh =
      .ok ⟨fromPK, bh,
        (if rexists then [] else
          [Instruction.createAssociatedTokenAccount fromPK
            (getAssociatedTokenAddress mint toPK) toPK mint]) ++
        [Instruction.transfer (getAssociatedTokenAddress mint fromPK)
          (getAssociatedTokenAddress mint toPK) fromPK u]⟩
        ("Transfer " ++ amountStr ++ " USDC") := by
  have hfe := parsePublicKey_ne_empty hf
  have hte := parsePublicKey_ne_empty ht
  have hae : amountStr ≠ "" := by
    intro he
    subst he
    rw [(by decide : parseFloat "" = JSNum.nan)] at hnan
    exact absurd hnan (by decide)
  simp only [tokenTransferPOST]
  rw [if_neg (by simp [hfe, hte, hae])]
  simp only [hf, ht, hnan, hpos, Bool.or_self]
  rw [if_neg (by decide : ¬(false = true))]
  rw [if_neg (by decide : ¬(USDC_MINT_ADDRESS = ""))]
  simp only [hm, hu]

/-- Inversion: whatever the route answered with 200 came from the
successful branch, with the instruction list it builds there. -/
theorem tokenTransferPOST_ok_inv (fromStr toStr amountStr : String) (rexists : Bool)
    (bh : String) (tx : VersionedTransaction) (msg : String)
    (h : tokenTransferPOST fromStr toStr amountStr rexists bh = .ok tx msg) :
    ∃ fromPK toPK mint u,
      parsePublicKey fromStr = some fromPK ∧ parsePublicKey toStr = some toPK ∧
      parsePublicKey USDC_MINT_ADDRESS = some mint ∧
      ((parseFloat amountStr).mul (JSNum.fin (Frac.ofInt 1000000))).mathFloor.bigIntOfFloored
        = some u ∧
      tx = ⟨fromPK, bh,
        (if rexists then [] else
          [Instruction.createAssociatedTokenAccount fromPK
            (getAssociatedTokenAddress mint toPK) toPK mint]) ++
        [Instruction.transfer (getAssociatedTokenAddress mint fromPK)
          (getAssociatedTokenAddress mint toPK) fromPK u]⟩ := by
  by_cases h1 : fromStr = "" ∨ toStr = "" ∨ amountStr = ""
  · simp only [tokenTransferPOST, if_pos h1] at h
    exact RouteResponse.noConfusion h
  rcases hf : parsePublicKey fromStr with _ | fromPK
  · simp only [tokenTransferPOST, if_neg h1, hf] at h
    exact RouteResponse.noConfusion h
  rcases ht : parsePublicKey toStr with _ | toPK
  · simp only [tokenTransferPOST, if_neg h1, hf, ht] at h
    exact RouteResponse.noConfusion h
  by_cases h2 : ((parseFloat amountStr).isNaN || (parseFloat amountStr).leZero) = true
  · simp only [tokenTransferPOST, if_neg h1, hf, ht, if_pos h2] at h
    exact RouteResponse.noConfusion h
  obtain ⟨mint, hm⟩ : ∃ mpk, parsePublicKey USDC_MINT_ADDRESS = some mpk := by
    have hsome : (parsePublicKey USDC_MINT_ADDRESS).isSome = true := by decide
    exact Option.isSome_iff_exists.mp hsome
  rcases hu : ((parseFloat amountStr).mul (JSNum.fin (Frac.ofInt 1000000))).mathFloor.bigIntOfFloored
    with _ | u
  · simp only [tokenTransferPOST, if_neg h1, hf, ht, if_neg h2,
      if_neg (by decide : ¬(USDC_MINT_ADDRESS = "")), hm, hu] at h
    exact RouteResponse.noConfusion h
  · simp only [tokenTransferPOST, if_neg h1, hf, ht, if_neg h2,
      if_neg (by decide : ¬(USDC_MINT_ADDRESS = "")), hm, hu] at h
    injection h with h4 h5
    exact ⟨fromPK, toPK, mint, u, rfl, rfl, hm, rfl, h4.symm⟩

end USDC

namespace USDC

/-! ### C1, C6, C7, C3 -/

/-- C1 (amended): an amount whose double-precision product with 10^6 floors
to zero is not rejected — the build succeeds and the returned transaction
carries a transfer instruction of 0 smallest units; only NaN and
non-positive parses are rejected. -/
theorem tokenTransferPOST_zero_floor_accepted (fromStr toStr amountStr : String)
    (rexists : Bool) (bh : String) (fromPK toPK : PublicKey)
    (hf : parsePublicKey fromStr = some fromPK) (ht : parsePublicKey toStr = some toPK)
    (hnan : (parseFloat amountStr).isNaN = false)
    (hpos : (parseFloat amountStr).leZero = false)
    (hzero : ((parseFloat amountStr).mul (JSNum.fin (Frac.ofInt 1000000))).mathFloor
      = .fin (Frac.ofInt 0)) :
    (tokenTransferPOST fromStr toStr amountStr rexists bh).isOk = true ∧
    (tokenTransferPOST fromStr toStr amountStr rexists bh).transferAmounts = [0] := by
  obtain ⟨mint, hm⟩ : ∃ mpk, parsePublicKey USDC_MINT_ADDRESS = some mpk := by
    have hsome : (parsePublicKey USDC_MINT_ADDRESS).isSome = true := by decide
    exact Option.isSome_iff_exists.mp hsome
  have hu : ((parseFloat amountStr).mul
      (JSNum.fin (Frac.ofInt 1000000))).mathFloor.bigIntOfFloored = some 0 := by
    rw [hzero]
    rfl
  rw [tokenTransferPOST_ok_eq fromStr toStr amountStr rexists bh fromPK toPK mint 0
    hf ht hm hnan hpos hu]
  refine ⟨rfl, ?_⟩
  cases rexists <;> simp [RouteResponse.transferAmounts]

theorem tokenTransferPOST_zero_floor_accepted_witness :
    (tokenTransferPOST onesAddress onesAddress "0.0000001" false "bh").isOk = true ∧
    (tokenTransferPOST onesAddress onesAddress "0.0000001" false "bh").transferAmounts
      = [0] :=
  tokenTransferPOST_zero_floor_accepted onesAddress onesAddress "0.0000001" false "bh"
    zeroKey zeroKey (by decide) (by decide) (by decide) (by decide) (by decide)

/-- C1 counterexample: the amount `"0.0000001"` floors to zero smallest
units, yet the build returns a serialized transaction (with a 0-unit
transfer) instead of a validation error. -/
theorem tokenTransferPOST_zero_floor_counterexample :
    (tokenTransferPOST onesAddress onesAddress "0.0000001" true "bh").isOk = true ∧
    (tokenTransferPOST onesAddress onesAddress "0.0000001" true "bh").transferAmounts
      = [0] := by
  constructor <;> decide

/-- C6 (amended): an amount whose `parseFloat` result is NaN or non-positive
is rejected with HTTP 400 and no transaction; `parseFloat` accepts any
positive numeric prefix, so strings such as `"1.5abc"` are not rejected. -/
theorem tokenTransferPOST_nonpositive_rejected (fromStr toStr amountStr : String)
    (rexists : Bool) (bh : String)
    (h : (parseFloat amountStr).isNaN = true ∨ (parseFloat amountStr).leZero = true) :
    (tokenTransferPOST fromStr toStr amountStr rexists bh).statusCode = 400 ∧
    (tokenTransferPOST fromStr toStr amountStr rexists bh).isOk = false := by
  have hguard : ((parseFloat amountStr).isNaN || (parseFloat amountStr).leZero) = true := by
    rcases h with h | h <;> simp [h]
  by_cases h1 : fromStr = "" ∨ toStr = "" ∨ amountStr = ""
  · simp only [tokenTransferPOST, if_pos h1]
    exact ⟨rfl, rfl⟩
  rcases hf : parsePublicKey fromStr with _ | fromPK
  · simp only [tokenTransferPOST, if_neg h1, hf]
    exact ⟨rfl, rfl⟩
  rcases ht : parsePublicKey toStr with _ | toPK
  · simp only [tokenTransferPOST, if_neg h1, hf, ht]
    exact ⟨rfl, rfl⟩
  simp only [tokenTransferPOST, if_neg h1, hf, ht, if_pos hguard]
  exact ⟨rfl, rfl⟩

theorem tokenTransferPOST_nonpositive_rejected_witness :
    (tokenTransferPOST onesAddress onesAddress "-1" true "bh").statusCode = 400 ∧
    (tokenTransferPOST onesAddress onesAddress "-1" true "bh").isOk = false :=
  tokenTransferPOST_nonpositive_rejected onesAddress onesAddress "-1" true "bh"
    (Or.inr (by decide))

/-- C6 counterexample: `"1.5abc"` is not a decimal number, yet the build
succeeds with HTTP 200 and a 1,500,000-unit transfer, because `parseFloat`
reads the numeric prefix `1.5`. -/
theorem tokenTransferPOST_trailing_junk_counterexample :
    (tokenTransferPOST onesAddress onesAddress "1.5abc" true "bh").isOk = true ∧
    (tokenTransferPOST onesAddress onesAddress "1.5abc" true "bh").statusCode = 200 ∧
    (tokenTransferPOST onesAddress onesAddress "1.5abc" true "bh").transferAmounts
      = [1500000] := by
  refine ⟨?_, ?_, ?_⟩ <;> decide

/-- C7 (amended): the smallest-unit value placed in the transfer
instruction is the double-precision `Math.floor(parseFloat(amount) * 10^6)`
(which agrees with the exact `floor(amount × 10^6)` on `"1.00"` and
`"2.50"`, giving 1,000,000 and 2,500,000 units). -/
theorem tokenTransferPOST_smallest_units :
    (∀ fromStr toStr amountStr : String, ∀ rexists : Bool, ∀ bh : String, ∀ u : ℤ,
      ((parseFloat amountStr).mul (JSNum.fin (Frac.ofInt 1000000))).mathFloor.bigIntOfFloored
        = some u →
      (tokenTransferPOST fromStr toStr amountStr rexists bh).isOk = true →
      (tokenTransferPOST fromStr toStr amountStr rexists bh).transferAmounts = [u]) ∧
    (tokenTransferPOST onesAddress onesAddress "1.00" true "bh").transferAmounts
      = [1000000] ∧
    specSmallestUnits "1.00" = some 1000000 ∧
    (tokenTransferPOST onesAddress onesAddress "2.50" true "bh").transferAmounts
      = [2500000] ∧
    specSmallestUnits "2.50" = some 2500000 := by
  refine ⟨?_, by decide, by decide, by decide, by decide⟩
  intro fromStr toStr amountStr rexists bh u hu hok
  cases hres : tokenTransferPOST fromStr toStr amountStr rexists bh with
  | err s e =>
    rw [hres] at hok
    simp [RouteResponse.isOk] at hok
  | ok tx msg =>
    obtain ⟨fromPK, toPK, mint, u2, hf, ht, hm, hu2, htx⟩ :=
      tokenTransferPOST_ok_inv fromStr toStr amountStr rexists bh tx msg hres
    have huu : u2 = u := by
      have h12 := hu2.symm.trans hu
      injection h12
    subst huu htx
    cases rexists <;> simp [RouteResponse.transferAmounts]

theorem tokenTransferPOST_smallest_units_witness :
    (tokenTransferPOST onesAddress onesAddress "1.00" false "bh2").transferAmounts
      = [1000000] :=
  tokenTransferPOST_smallest_units.1 onesAddress onesAddress "1.00" false "bh2" 1000000
    (by decide) (by decide)

/-- C7 counterexample: for the amount `"0.000249"` the code places 248
smallest units in the transfer instruction, while the exact
`floor(amount × 10^6)` is 249 — double rounding loses one unit. -/
theorem tokenTransferPOST_units_counterexample :
    (tokenTransferPOST onesAddress onesAddress "0.000249" true "bh").transferAmounts
      = [248] ∧
    specSmallestUnits "0.000249" = some 249 := by
  constructor <;> decide

/-- C3: a successful build has exactly one create-sub-account instruction
strictly before the transfer when the recipient sub-account is absent (the
create paid by the sender), and only the transfer when it exists. -/
theorem tokenTransferPOST_instruction_shape (fromStr toStr amountStr : String)
    (rexists : Bool) (bh : String)
    (hok : (tokenTransferPOST fromStr toStr amountStr rexists bh).isOk = true) :
    (rexists = true →
      (tokenTransferPOST fromStr toStr amountStr rexists bh).instructionsOf.map
        Instruction.isTransfer = [true]) ∧
    (rexists = false →
      (tokenTransferPOST fromStr toStr amountStr rexists bh).instructionsOf.map
        Instruction.isCreate = [true, false] ∧
      (tokenTransferPOST fromStr toStr amountStr rexists bh).instructionsOf.map
        Instruction.isTransfer = [false, true] ∧
      (tokenTransferPOST fromStr toStr amountStr rexists bh).instructionsOf.head?.bind
        Instruction.createPayer = parsePublicKey fromStr) := by
  cases hres : tokenTransferPOST fromStr toStr amountStr rexists bh with
  | err s e =>
    rw [hres] at hok
    simp [RouteResponse.isOk] at hok
  | ok tx msg =>
    obtain ⟨fromPK, toPK, mint, u, hf, ht, hm, hu, htx⟩ :=
      tokenTransferPOST_ok_inv fromStr toStr amountStr rexists bh tx msg hres
    subst htx
    constructor
    · intro hrex
      subst hrex
      simp [RouteResponse.instructionsOf, Instruction.isTransfer]
    · intro hrex
      subst hrex
      refine ⟨?_, ?_, ?_⟩ <;>
        simp [RouteResponse.instructionsOf, Instruction.isTransfer, Instruction.isCreate,
          Instruction.createPayer, hf]

theorem tokenTransferPOST_instruction_shape_witness :
    (tokenTransferPOST onesAddress onesAddress "1.00" false "bh").instructionsOf.map
      Instruction.isCreate = [true, false] :=
  ((tokenTransferPOST_instruction_shape onesAddress onesAddress "1.00" false "bh"
    (by decide)).2 rfl).1

/-! ### C8: balance refresh -/

/-- C8: the balance refresh is a total function whose catch handler maps
every thrown failure to zero balances; a missing token sub-account yields a
200 response with token balance 0; a failed network call, a failed
server-side query, or an invalid address degrade to zero balances; and a
failed token-account lookup degrades the token balance to 0. -/
theorem refreshBalances_robust :
    (∀ f : FetchResult, ∀ m : String, fetchBalancesTry f = .thrown m →
      fetchBalances f = (Frac.ofInt 0, Frac.ofInt 0)) ∧
    (∀ env : BalancesEnv, ∀ addr : String, ∀ pk : PublicKey, ∀ lamports : ℕ,
      env.address = some addr → parsePublicKey addr = some pk →
      env.getBalance = .ok lamports → env.getAccount = .missing →
      (balancesGET env).isOkResp = true ∧
      Frac.eqv (refreshBalances none env).2 (Frac.ofInt 0)) ∧
    (∀ env : BalancesEnv, ∀ msg : String,
      refreshBalances (some msg) env = (Frac.ofInt 0, Frac.ofInt 0)) ∧
    (∀ env : BalancesEnv, ∀ s : ℕ, ∀ e : String, balancesGET env = .err s e →
      refreshBalances none env = (Frac.ofInt 0, Frac.ofInt 0)) ∧
    (∀ env : BalancesEnv, ∀ addr : String, ∀ pk : PublicKey, ∀ lamports : ℕ, ∀ m : String,
      env.address = some addr → parsePublicKey addr = some pk →
      env.getBalance = .ok lamports → env.getAccount = .rpcFailure m →
      Frac.eqv (refreshBalances none env).2 (Frac.ofInt 0)) := by
  have hmint : ∃ mpk, parsePublicKey BALANCES_USDC_MINT_ADDRESS = some mpk := by
    have hsome : (parsePublicKey BALANCES_USDC_MINT_ADDRESS).isSome = true := by decide
    exact Option.isSome_iff_exists.mp hsome
  obtain ⟨mpk, hmp⟩ := hmint
  refine ⟨?_, ?_, ?_, ?_, ?_⟩
  · intro f m h
    simp [fetchBalances, h]
  · intro env addr pk lamports ha hp hb hacc
    have hg : balancesGET env =
        .ok ⟨roundToFixed ⟨(lamports : ℤ), 1000000000⟩ 3, roundToFixed (Frac.ofInt 0) 2⟩ := by
      simp [balancesGET, ha, hp, hmp, hb, hacc,
        (by decide : ¬(BALANCES_USDC_MINT_ADDRESS = ""))]
    constructor
    · rw [hg]
      rfl
    · simp only [refreshBalances, fetchBalances, fetchBalancesTry, hg]
      decide
  · intro env msg
    rfl
  · intro env s e h
    simp [refreshBalances, fetchBalances, fetchBalancesTry, h]
  · intro env addr pk lamports m ha hp hb hacc
    have hg : balancesGET env =
        .ok ⟨roundToFixed ⟨(lamports : ℤ), 1000000000⟩ 3, roundToFixed (Frac.ofInt 0) 2⟩ := by
      simp [balancesGET, ha, hp, hmp, hb, hacc,
        (by decide : ¬(BALANCES_USDC_MINT_ADDRESS = ""))]
    simp only [refreshBalances, fetchBalances, fetchBalancesTry, hg]
    decide

theorem refreshBalances_robust_witness :
    refreshBalances (some "offline") ⟨some onesAddress, .ok 0, .missing⟩
      = (Frac.ofInt 0, Frac.ofInt 0) :=
  refreshBalances_robust.2.2.1 ⟨some onesAddress, .ok 0, .missing⟩ "offline"

end USDC
